import Mathlib

/-!
Verification development for the Vulkan pipeline cache of
`src/video_core/renderer_vulkan/vk_pipeline_cache.cpp`.

The C++ translation unit is embedded shallowly:

* 64-bit instruction words are `Nat` (the source only masks, compares with a
  constant and tests for zero, so no overflow arithmetic occurs);
* the instruction stream (`ProgramCode`, a `std::vector<u64>`) is `List Nat`;
* the pipeline maps (`std::unordered_map`) are association lists whose keys
  stay unique because insertion only happens after a failed lookup;
* stateful member functions become explicit state-passing functions;
* collaborators that live outside this translation unit (the rasterizer cache
  base class, `MAX_PROGRAM_LENGTH`, the pipeline cache key types,
  `ShaderEntries::NumBindings`) are modelled from the specification and marked
  as such in their doc comments.
-/

/-- Encoding of the BRA instruction that jumps to itself
(`self_jumping_branch` in `CalculateProgramSize`); every shader stream ends
with one. -/
def selfJumpingBranch : Nat := 0xE2400FFFFF07000F

/-- Mask applied to an instruction word before comparing it with
`selfJumpingBranch` (`mask` in `CalculateProgramSize`); it clears the
predicate bit. -/
def progMask : Nat := 0xFFFFFFFFFF7FFFFF

/-- `IsSchedInstruction` from the source: scheduler instructions appear once
every 4 instructions, counted from `main_offset`. -/
def IsSchedInstruction (offset main_offset : Nat) : Bool :=
  (offset - main_offset) % 4 == 0

/-- The termination test `CalculateProgramSize` applies to a non-scheduler
word: masked self-jumping branch, or an all-zero word. -/
def isTerminator (w : Nat) : Bool :=
  (Nat.land w progMask == selfJumpingBranch) || (w == 0)

/-- The scanning loop of `CalculateProgramSize`: `offset` is the index of the
head of the remaining word list within the whole program; the function
returns the loop's final `offset` (the index at which the loop broke, or one
past the last word when it ran off the end). -/
def scanSize (start : Nat) : List Nat → Nat → Nat
  | [], offset => offset
  | w :: rest, offset =>
    if !IsSchedInstruction offset start && isTerminator w then offset
    else scanSize start rest (offset + 1)

/-- `CalculateProgramSize` from the source: scan from word 10 (graphics) or
word 0 (compute) and return `min (offset + 1) size`. -/
def CalculateProgramSize (program : List Nat) (is_compute : Bool) : Nat :=
  let start_offset := if is_compute then 0 else 10
  min (scanSize start_offset (program.drop start_offset) start_offset + 1) program.length

/-- Index of the first terminator word at or after the scan origin, skipping
scheduler slots. Auxiliary scan for the specification-worded estimator. -/
def firstTerminatorFrom (start : Nat) : List Nat → Nat → Option Nat
  | [], _ => none
  | w :: rest, i =>
    if !IsSchedInstruction i start && isTerminator w then some i
    else firstTerminatorFrom start rest (i + 1)

/-- `EstimateLength` as worded by the specification (section 4.1): scan
forward from the fixed start offset, skip every word whose offset minus the
scan origin is a multiple of 4, return the index of the first terminator plus
one (terminator included), and the full buffer size when no terminator is
found. -/
def specEstimateLength (program : List Nat) (is_compute : Bool) : Nat :=
  let start := if is_compute then 0 else 10
  match firstTerminatorFrom start (program.drop start) start with
  | some i => i + 1
  | none => program.length

theorem scanSize_firstTerminator (start : Nat) (ws : List Nat) : ∀ (k : Nat),
    (firstTerminatorFrom start ws k = none → scanSize start ws k = k + ws.length) ∧
    (∀ t, firstTerminatorFrom start ws k = some t →
      scanSize start ws k = t ∧ k ≤ t ∧ t < k + ws.length) := by
  induction ws with
  | nil =>
    intro k
    refine ⟨fun _ => rfl, fun t h => ?_⟩
    simp [firstTerminatorFrom] at h
  | cons w rest ih =>
    intro k
    by_cases hc : (!IsSchedInstruction k start && isTerminator w) = true
    · refine ⟨fun h => ?_, fun t h => ?_⟩
      · rw [firstTerminatorFrom, if_pos hc] at h
        exact absurd h (by simp)
      · rw [firstTerminatorFrom, if_pos hc] at h
        have ht : t = k := by exact (Option.some.injEq _ _).mp h.symm
        subst ht
        refine ⟨?_, Nat.le_refl _, ?_⟩
        · rw [scanSize, if_pos hc]
        · simp only [List.length_cons]
          omega
    · have hc' : (!IsSchedInstruction k start && isTerminator w) = false := by
        simpa using hc
      refine ⟨fun h => ?_, fun t h => ?_⟩
      · rw [firstTerminatorFrom, if_neg (by simp [hc'])] at h
        have h2 := (ih (k + 1)).1 h
        rw [scanSize, if_neg (by simp [hc']), h2]
        simp only [List.length_cons]
        omega
      · rw [firstTerminatorFrom, if_neg (by simp [hc'])] at h
        have h2 := (ih (k + 1)).2 t h
        refine ⟨?_, ?_, ?_⟩
        · rw [scanSize, if_neg (by simp [hc'])]
          exact h2.1
        · have := h2.2.1
          omega
        · have := h2.2.2
          simp only [List.length_cons]
          omega

theorem scanSize_eq_of_first (start : Nat) (ws : List Nat) : ∀ (k i : Nat),
    i < ws.length →
    IsSchedInstruction (k + i) start = false →
    isTerminator (ws.getD i 0) = true →
    (∀ j, j < i → IsSchedInstruction (k + j) start = true ∨
      isTerminator (ws.getD j 0) = false) →
    scanSize start ws k = k + i := by
  induction ws with
  | nil => intro k i hi _ _ _; simp at hi
  | cons w rest ih =>
    intro k i hi hsched hterm hmin
    cases i with
    | zero =>
      have hterm' : isTerminator w = true := by simpa using hterm
      have hsched' : IsSchedInstruction k start = false := by simpa using hsched
      rw [scanSize, if_pos (by simp [hsched', hterm'])]
      omega
    | succ j =>
      have hhead := hmin 0 (Nat.succ_pos j)
      have hcond : (!IsSchedInstruction k start && isTerminator w) = false := by
        rcases hhead with h | h
        · simp only [Nat.add_zero] at h; simp [h]
        · simp only [List.getD_cons_zero] at h; simp [h]
      rw [scanSize, if_neg (by simp [hcond])]
      have : scanSize start rest (k + 1) = (k + 1) + j := by
        apply ih (k + 1) j
        · simpa using hi
        · have : k + 1 + j = k + (j + 1) := by omega
          rw [this]; exact hsched
        · simpa using hterm
        · intro j' hj'
          have := hmin (j' + 1) (by omega)
          have harith : k + 1 + j' = k + (j' + 1) := by omega
          rw [harith]
          simpa using this
      rw [this]; omega

/-- C5: the source's `CalculateProgramSize` meets the specification's
description of `EstimateLength`: scan from word 10 (graphics) or word 0
(compute), skip every word whose offset minus the scan origin is a multiple
of 4, treat a non-scheduler word as a terminator iff its masked value equals
the self-branch encoding or the raw word is zero, return the first terminator
index plus one, and return the full buffer size when no terminator is
found. -/
theorem c5_calculate_program_size_meets_spec (program : List Nat) (is_compute : Bool) :
    CalculateProgramSize program is_compute = specEstimateLength program is_compute := by
  unfold CalculateProgramSize specEstimateLength
  set start := if is_compute then 0 else 10 with hstart
  have hdroplen : (program.drop start).length = program.length - start :=
    List.length_drop start program
  cases hft : firstTerminatorFrom start (program.drop start) start with
  | none =>
    have hs := (scanSize_firstTerminator start (program.drop start) start).1 hft
    simp only [hft]
    rw [hs, hdroplen]
    rcases le_or_lt start program.length with hle | hlt
    · have : start + (program.length - start) = program.length := by omega
      rw [this]
      omega
    · have : start + (program.length - start) = start := by omega
      rw [this]
      omega
  | some t =>
    have hs := (scanSize_firstTerminator start (program.drop start) start).2 t hft
    simp only [hft]
    rw [hs.1]
    have hkb := hs.2.1
    have htb := hs.2.2
    rw [hdroplen] at htb
    have ht : t < program.length := by omega
    omega

/-- C4 counterexample: a compute stream (`mainOffset = 0`) whose word at
index `mainOffset + 4` is the self-branch sentinel and whose other words
before the sentinel are non-terminating. The sentinel sits in a scheduler
slot, is therefore ignored, and the computed length is the full buffer size
6, not `mainOffset + 5 = 5`. -/
theorem c4_sentinel_in_scheduler_slot_counterexample :
    List.getD [1, 1, 1, 1, selfJumpingBranch, 1] (0 + 4) 0 = selfJumpingBranch ∧
    isTerminator (List.getD [1, 1, 1, 1, selfJumpingBranch, 1] 1 0) = false ∧
    isTerminator (List.getD [1, 1, 1, 1, selfJumpingBranch, 1] 2 0) = false ∧
    isTerminator (List.getD [1, 1, 1, 1, selfJumpingBranch, 1] 3 0) = false ∧
    CalculateProgramSize [1, 1, 1, 1, selfJumpingBranch, 1] true ≠ 0 + 5 := by
  refine ⟨rfl, by decide, by decide, by decide, by decide⟩

/-- C4 (amended): the sentinel must sit in a non-scheduler slot to terminate
the scan. If the word at index `mainOffset + 5` is the self-branch sentinel,
every non-scheduler word before it is non-terminating, and the buffer extends
past the sentinel, then `CalculateProgramSize` returns `mainOffset + 6`
(sentinel included); a sentinel at `mainOffset + 4` would be ignored as a
scheduler slot. -/
theorem c4_sentinel_terminates_after_scheduler_slot
    (program : List Nat) (is_compute : Bool) (m : Nat)
    (hm : m = if is_compute then 0 else 10)
    (hlen : m + 5 < program.length)
    (hsent : program.getD (m + 5) 0 = selfJumpingBranch)
    (hpre : ∀ i, m ≤ i → i < m + 5 → (i - m) % 4 ≠ 0 →
      isTerminator (program.getD i 0) = false) :
    CalculateProgramSize program is_compute = m + 6 := by
  have hunfold : CalculateProgramSize program is_compute =
      min (scanSize m (program.drop m) m + 1) program.length := by
    subst hm
    rfl
  rw [hunfold]
  have hgd : ∀ j, (program.drop m).getD j 0 = program.getD (m + j) 0 := by
    intro j
    simp [List.getD_eq_getElem?_getD, List.getElem?_drop]
  have hdroplen : (program.drop m).length = program.length - m :=
    List.length_drop m program
  have hscan : scanSize m (program.drop m) m = m + 5 := by
    apply scanSize_eq_of_first m (program.drop m) m 5
    · omega
    · simp [IsSchedInstruction]
    · rw [hgd 5, hsent]
      decide
    · intro j hj
      by_cases hsched : j % 4 = 0
      · left
        simp only [IsSchedInstruction, Nat.add_sub_cancel_left]
        simpa using hsched
      · right
        rw [hgd j]
        apply hpre (m + j) (by omega) (by omega)
        omega
  rw [hscan]
  omega

/-- Witness for the amended C4 at a concrete compute stream. -/
theorem c4_sentinel_terminates_witness :
    CalculateProgramSize [7, 1, 1, 1, 7, selfJumpingBranch, 1] true = 0 + 6 := by
  apply c4_sentinel_terminates_after_scheduler_slot
    [7, 1, 1, 1, 7, selfJumpingBranch, 1] true 0 rfl (by decide) (by decide)
  intro i _ hi hmod
  have : i = 1 ∨ i = 2 ∨ i = 3 := by omega
  rcases this with rfl | rfl | rfl <;> decide

/-- Modelled from the spec: `VideoCommon::Shader::MAX_PROGRAM_LENGTH`, the
fixed maximum shader program length in 64-bit words, declared outside this
translation unit ("reads a fixed maximum-length buffer of instruction
words"). -/
def MAX_PROGRAM_LENGTH : Nat := 4096

/-- Modelled from the spec: the external memory reader
(`MemoryManager::ReadBlockUnsafe`), word-addressed: fills an `n`-word buffer
with the words of emulated memory starting at `gpu_addr`. -/
def readBlock (mem : Nat → Nat) (gpu_addr n : Nat) : List Nat :=
  (List.range n).map (fun i => mem (gpu_addr + i))

/-- `GetShaderCode` from the source: when the backing host pointer is null
(`host_ptr_null = true`) the `ASSERT_OR_EXECUTE` body zero-fills the
maximum-length buffer and returns it immediately; otherwise the buffer is
read from emulated memory and resized to `CalculateProgramSize`. -/
def GetShaderCode (mem : Nat → Nat) (gpu_addr : Nat) (host_ptr_null : Bool)
    (is_compute : Bool) : List Nat :=
  if host_ptr_null then
    List.replicate MAX_PROGRAM_LENGTH 0
  else
    let program_code := readBlock mem gpu_addr MAX_PROGRAM_LENGTH
    program_code.take (CalculateProgramSize program_code is_compute)

theorem calculateProgramSize_le_length (program : List Nat) (is_compute : Bool) :
    CalculateProgramSize program is_compute ≤ program.length := by
  unfold CalculateProgramSize
  exact Nat.min_le_right _ _

theorem scanSize_replicate_zero (n : Nat) :
    scanSize 0 (List.replicate (n + 2) 0) 0 = 1 := by
  rw [List.replicate_succ, List.replicate_succ]
  rw [scanSize, if_neg (by decide), scanSize, if_pos (by decide)]

theorem calcSize_replicate_zero (n : Nat) :
    CalculateProgramSize (List.replicate (n + 2) 0) true = 2 := by
  have h1 : CalculateProgramSize (List.replicate (n + 2) 0) true =
      min (scanSize 0 (List.replicate (n + 2) 0) 0 + 1) (n + 2) := by
    unfold CalculateProgramSize
    simp [List.length_replicate]
  rw [h1, scanSize_replicate_zero]
  omega

/-- C8 counterexample: with a null backing pointer the fetch returns the
full 4096-word zero buffer, while trimming the same zero buffer with the
length estimator would keep only 2 words; so the null path does not trim. -/
theorem c8_null_path_untrimmed_counterexample :
    (GetShaderCode (fun _ => 0) 0 true true).length = 4096 ∧
    CalculateProgramSize (GetShaderCode (fun _ => 0) 0 true true) true = 2 ∧
    (4096 : Nat) ≠ 2 := by
  have hrep : GetShaderCode (fun _ => 0) 0 true true =
      List.replicate MAX_PROGRAM_LENGTH 0 := rfl
  have h4096 : MAX_PROGRAM_LENGTH = 4094 + 2 := by norm_num [MAX_PROGRAM_LENGTH]
  refine ⟨?_, ?_, by decide⟩
  · rw [hrep, List.length_replicate]
    rfl
  · rw [hrep, h4096, calcSize_replicate_zero]

/-- C8 (amended): when the backing host pointer is null the fetch returns the
zero-filled maximum-length buffer untrimmed (the length estimator is not
applied on that error path); in the non-null case the buffer read from
emulated memory is trimmed to exactly the estimator's length, which never
exceeds the maximum length. -/
theorem c8_null_zero_fill_full_length_nonnull_trimmed
    (mem : Nat → Nat) (gpu_addr : Nat) (is_compute : Bool) :
    GetShaderCode mem gpu_addr true is_compute = List.replicate MAX_PROGRAM_LENGTH 0 ∧
    (GetShaderCode mem gpu_addr false is_compute).length =
      CalculateProgramSize (readBlock mem gpu_addr MAX_PROGRAM_LENGTH) is_compute ∧
    CalculateProgramSize (readBlock mem gpu_addr MAX_PROGRAM_LENGTH) is_compute ≤
      MAX_PROGRAM_LENGTH := by
  have hlen : (readBlock mem gpu_addr MAX_PROGRAM_LENGTH).length = MAX_PROGRAM_LENGTH := by
    simp [readBlock]
  have hle := calculateProgramSize_le_length (readBlock mem gpu_addr MAX_PROGRAM_LENGTH)
    is_compute
  rw [hlen] at hle
  refine ⟨rfl, ?_, hle⟩
  have h2 : GetShaderCode mem gpu_addr false is_compute =
      (readBlock mem gpu_addr MAX_PROGRAM_LENGTH).take
        (CalculateProgramSize (readBlock mem gpu_addr MAX_PROGRAM_LENGTH) is_compute) := by
    simp [GetShaderCode]
  rw [h2, List.length_take, hlen]
  omega

/-- The five Vulkan descriptor types used by this translation unit
(the `using enum`-style constants at the top of the anonymous namespace). -/
inductive DescriptorType
  | eUniformBuffer
  | eStorageBuffer
  | eUniformTexelBuffer
  | eCombinedImageSampler
  | eStorageImage
deriving DecidableEq

/-- A stage's resource-entry manifest (`ShaderEntries`). Each container is
kept as the list of its elements' `Size()` values: the layout and template
builders read nothing else from an element (and only combined-image-sampler
elements are ever inspected at all). Shader stage visibility flags, an
external enum, are not modelled. -/
structure ShaderEntries where
  const_buffers : List Nat
  global_buffers : List Nat
  texel_buffers : List Nat
  samplers : List Nat
  images : List Nat
deriving DecidableEq

/-- Modelled from the spec: `ShaderEntries::NumBindings` (declared in the
header, outside this translation unit) — the manifest's total
declared-resource count, one binding slot per declared resource. -/
def NumBindings (se : ShaderEntries) : Nat :=
  se.const_buffers.length + se.global_buffers.length + se.texel_buffers.length +
    se.samplers.length + se.images.length

/-- Total bound-element count of a manifest; combined-image-sampler entries
contribute their array sizes, every other resource contributes one. -/
def totalElements (se : ShaderEntries) : Nat :=
  se.const_buffers.length + se.global_buffers.length + se.texel_buffers.length +
    se.samplers.sum + se.images.length

/-- `vk::DescriptorSetLayoutBinding` restricted to the fields the source
writes (binding index, descriptor type, descriptor count). -/
structure DescriptorSetLayoutBinding where
  binding : Nat
  descriptorType : DescriptorType
  descriptorCount : Nat
deriving DecidableEq

/-- The descriptor count a layout binding receives: combined image samplers
can be arrayed (`container[i].Size()`), everything else gets 1. -/
def bindingCount (dt : DescriptorType) (sz : Nat) : Nat :=
  match dt with
  | .eCombinedImageSampler => sz
  | _ => 1

/-- `AddBindings` from the source: one layout binding per container element,
with the binding counter incremented per element. -/
def AddBindings (dt : DescriptorType) (binding : Nat) :
    List Nat → List DescriptorSetLayoutBinding × Nat
  | [] => ([], binding)
  | sz :: rest =>
    let tail := AddBindings dt (binding + 1) rest
    (⟨binding, dt, bindingCount dt sz⟩ :: tail.1, tail.2)

/-- `FillDescriptorLayout` from the source: appends bindings for the five
resource kinds in fixed order, threading the binding counter, and returns
the final counter. -/
def FillDescriptorLayout (se : ShaderEntries) (base_binding : Nat) :
    List DescriptorSetLayoutBinding × Nat :=
  let r1 := AddBindings .eUniformBuffer base_binding se.const_buffers
  let r2 := AddBindings .eStorageBuffer r1.2 se.global_buffers
  let r3 := AddBindings .eUniformTexelBuffer r2.2 se.texel_buffers
  let r4 := AddBindings .eCombinedImageSampler r3.2 se.samplers
  let r5 := AddBindings .eStorageImage r4.2 se.images
  (r1.1 ++ r2.1 ++ r3.1 ++ r4.1 ++ r5.1, r5.2)

theorem addBindings_snd (dt : DescriptorType) :
    ∀ (l : List Nat) (b : Nat), (AddBindings dt b l).2 = b + l.length := by
  intro l
  induction l with
  | nil => intro b; simp [AddBindings]
  | cons sz rest ih =>
    intro b
    simp only [AddBindings, ih (b + 1), List.length_cons]
    omega

theorem addBindings_map_binding (dt : DescriptorType) :
    ∀ (l : List Nat) (b : Nat),
      (AddBindings dt b l).1.map (fun x => x.binding) = List.range' b l.length := by
  intro l
  induction l with
  | nil => intro b; simp [AddBindings]
  | cons sz rest ih =>
    intro b
    simp only [AddBindings, List.map_cons, ih (b + 1), List.length_cons,
      List.range'_succ]

theorem addBindings_map_type (dt : DescriptorType) :
    ∀ (l : List Nat) (b : Nat),
      (AddBindings dt b l).1.map (fun x => x.descriptorType) =
        List.replicate l.length dt := by
  intro l
  induction l with
  | nil => intro b; simp [AddBindings]
  | cons sz rest ih =>
    intro b
    simp only [AddBindings, List.map_cons, ih (b + 1), List.length_cons,
      List.replicate_succ]

theorem addBindings_map_count (dt : DescriptorType) :
    ∀ (l : List Nat) (b : Nat),
      (AddBindings dt b l).1.map (fun x => x.descriptorCount) =
        l.map (bindingCount dt) := by
  intro l
  induction l with
  | nil => intro b; simp [AddBindings]
  | cons sz rest ih =>
    intro b
    simp only [AddBindings, List.map_cons, ih (b + 1)]

theorem map_const_one (l : List Nat) :
    l.map (fun _ => (1 : Nat)) = List.replicate l.length 1 := by
  induction l with
  | nil => rfl
  | cons a rest ih => simp [List.replicate_succ, ih]

theorem range'_split (s m n : Nat) :
    List.range' s (m + n) = List.range' s m ++ List.range' (s + m) n := by
  have := List.range'_append s m n 1
  simpa [Nat.add_comm] using this.symm

theorem map_sampler_count_id (l : List Nat) :
    l.map (bindingCount .eCombinedImageSampler) = l := by
  induction l with
  | nil => rfl
  | cons a rest ih => simp [bindingCount, ih]

/-- C6: `FillDescriptorLayout` appends bindings in the fixed order constant
buffers, storage buffers, texel buffers, combined-image-samplers, storage
images; allocates exactly one binding slot per declared resource; the
combined-image-sampler slots carry `count = arraySize` and every other slot
`count = 1`; binding indices are consecutive from `base_binding`; and the
returned next binding is `base_binding + NumBindings`, so the source's
assertion `old_binding + entries.NumBindings() == base_binding` always
holds. -/
theorem c6_descriptor_layout_shape (se : ShaderEntries) (base_binding : Nat) :
    (FillDescriptorLayout se base_binding).2 = base_binding + NumBindings se ∧
    (FillDescriptorLayout se base_binding).1.map (fun x => x.binding) =
      List.range' base_binding (NumBindings se) ∧
    (FillDescriptorLayout se base_binding).1.map (fun x => x.descriptorType) =
      List.replicate se.const_buffers.length .eUniformBuffer ++
      List.replicate se.global_buffers.length .eStorageBuffer ++
      List.replicate se.texel_buffers.length .eUniformTexelBuffer ++
      List.replicate se.samplers.length .eCombinedImageSampler ++
      List.replicate se.images.length .eStorageImage ∧
    (FillDescriptorLayout se base_binding).1.map (fun x => x.descriptorCount) =
      List.replicate se.const_buffers.length 1 ++
      List.replicate se.global_buffers.length 1 ++
      List.replicate se.texel_buffers.length 1 ++
      se.samplers ++
      List.replicate se.images.length 1 := by
  unfold FillDescriptorLayout
  simp only [addBindings_snd]
  refine ⟨by simp [NumBindings]; ring, ?_, ?_, ?_⟩
  · simp only [List.map_append, addBindings_map_binding, addBindings_snd, NumBindings]
    rw [show se.const_buffers.length + se.global_buffers.length + se.texel_buffers.length +
        se.samplers.length + se.images.length =
        se.const_buffers.length + (se.global_buffers.length + (se.texel_buffers.length +
          (se.samplers.length + se.images.length))) by ring]
    rw [range'_split, range'_split, range'_split, range'_split]
    simp only [List.append_assoc]
  · simp only [List.map_append, addBindings_map_type]
  · simp only [List.map_append, addBindings_map_count]
    have h1 : ∀ l : List Nat, l.map (bindingCount .eUniformBuffer) =
        List.replicate l.length 1 := fun l => map_const_one l
    have h2 : ∀ l : List Nat, l.map (bindingCount .eStorageBuffer) =
        List.replicate l.length 1 := fun l => map_const_one l
    have h3 : ∀ l : List Nat, l.map (bindingCount .eUniformTexelBuffer) =
        List.replicate l.length 1 := fun l => map_const_one l
    have h5 : ∀ l : List Nat, l.map (bindingCount .eStorageImage) =
        List.replicate l.length 1 := fun l => map_const_one l
    rw [h1, h2, h3, map_sampler_count_id, h5]

/-- `vk::DescriptorUpdateTemplateEntry` as written by the source: destination
binding, destination array element (always 0), descriptor count, descriptor
type, byte offset into the flat update buffer, and stride. The entry stride
`sizeof(DescriptorUpdateEntry)` is an external constant and is threaded as
the parameter `esz`. -/
structure DescriptorUpdateTemplateEntry where
  dstBinding : Nat
  dstArrayElement : Nat
  descriptorCount : Nat
  descriptorType : DescriptorType
  offset : Nat
  stride : Nat
deriving DecidableEq

/-- The combined-image-sampler loop of `AddEntry`: one template entry per
declared sampler with `count = Size()`, the binding counter advancing by one
and the offset by `Size() * entry_size` per sampler. -/
def addSamplerEntries (esz : Nat) :
    Nat → Nat → List Nat → List DescriptorUpdateTemplateEntry × Nat × Nat
  | binding, offset, [] => ([], binding, offset)
  | binding, offset, s :: rest =>
    let tail := addSamplerEntries esz (binding + 1) (offset + s * esz) rest
    (⟨binding, 0, s, .eCombinedImageSampler, offset, esz⟩ :: tail.1, tail.2)

/-- `AddEntry` from the source, with its own parameter names: the
combined-image-sampler branch returns early from its per-sampler loop; the
texel-buffer branch emits one entry per element (Nvidia driver workaround);
every other type emits a single grouped entry when the container is
non-empty; the final two branches then advance `offset` by
`count * entry_size` and `binding` by `count`. -/
def AddEntry (dt : DescriptorType) (esz : Nat) (binding offset : Nat)
    (container : List Nat) : List DescriptorUpdateTemplateEntry × Nat × Nat :=
  let count := container.length
  match dt with
  | .eCombinedImageSampler => addSamplerEntries esz binding offset container
  | .eUniformTexelBuffer =>
    ((List.range count).map
        (fun i => ⟨binding + i, 0, 1, .eUniformTexelBuffer, offset + i * esz, esz⟩),
      binding + count, offset + count * esz)
  | _ =>
    ((if 0 < count then [⟨binding, 0, count, dt, offset, esz⟩] else []),
      binding + count, offset + count * esz)

/-- `FillDescriptorUpdateTemplateEntries` from the source. Note the call
sites: the caller's `offset` reference is passed into `AddEntry`'s `binding`
parameter and vice versa, so the accumulator this function calls `binding`
advances in bytes and the one it calls `offset` advances in binding slots.
`x` threads the argument passed in `offset` position, `y` the one passed in
`binding` position. -/
def FillDescriptorUpdateTemplateEntries (esz : Nat) (se : ShaderEntries)
    (binding offset : Nat) : List DescriptorUpdateTemplateEntry × Nat × Nat :=
  let r1 := AddEntry .eUniformBuffer esz offset binding se.const_buffers
  let r2 := AddEntry .eStorageBuffer esz r1.2.1 r1.2.2 se.global_buffers
  let r3 := AddEntry .eUniformTexelBuffer esz r2.2.1 r2.2.2 se.texel_buffers
  let r4 := AddEntry .eCombinedImageSampler esz r3.2.1 r3.2.2 se.samplers
  let r5 := AddEntry .eStorageImage esz r4.2.1 r4.2.2 se.images
  (r1.1 ++ r2.1 ++ r3.1 ++ r4.1 ++ r5.1, r5.2.2, r5.2.1)

/-- The update-template derivation as worded by the specification, tracking a
slot counter and a running byte offset: texel buffers one entry per element,
combined-image-samplers one entry per declared sampler with
`count = arraySize`, all other kinds a single entry covering `count` elements
when `count > 0`. -/
def specTemplates (esz : Nat) (se : ShaderEntries) (slot byte : Nat) :
    List DescriptorUpdateTemplateEntry :=
  let c1 := se.const_buffers.length
  let t1 : List DescriptorUpdateTemplateEntry :=
    if 0 < c1 then [⟨slot, 0, c1, .eUniformBuffer, byte, esz⟩] else []
  let slot1 := slot + c1
  let byte1 := byte + c1 * esz
  let c2 := se.global_buffers.length
  let t2 : List DescriptorUpdateTemplateEntry :=
    if 0 < c2 then [⟨slot1, 0, c2, .eStorageBuffer, byte1, esz⟩] else []
  let slot2 := slot1 + c2
  let byte2 := byte1 + c2 * esz
  let c3 := se.texel_buffers.length
  let t3 := (List.range c3).map
    (fun i => (⟨slot2 + i, 0, 1, .eUniformTexelBuffer, byte2 + i * esz, esz⟩ :
      DescriptorUpdateTemplateEntry))
  let slot3 := slot2 + c3
  let byte3 := byte2 + c3 * esz
  let t4 := addSamplerEntries esz slot3 byte3 se.samplers
  let slot4 := slot3 + se.samplers.length
  let byte4 := byte3 + se.samplers.sum * esz
  let c5 := se.images.length
  let t5 : List DescriptorUpdateTemplateEntry :=
    if 0 < c5 then [⟨slot4, 0, c5, .eStorageImage, byte4, esz⟩] else []
  t1 ++ t2 ++ t3 ++ t4.1 ++ t5

theorem addSamplerEntries_acc (esz : Nat) :
    ∀ (l : List Nat) (b o : Nat),
      (addSamplerEntries esz b o l).2.1 = b + l.length ∧
      (addSamplerEntries esz b o l).2.2 = o + l.sum * esz := by
  intro l
  induction l with
  | nil => intro b o; simp [addSamplerEntries]
  | cons s rest ih =>
    intro b o
    have := ih (b + 1) (o + s * esz)
    simp only [addSamplerEntries, List.length_cons, List.sum_cons, this.1, this.2]
    constructor
    · omega
    · ring

theorem AddEntry_uniform (esz b o : Nat) (l : List Nat) :
    AddEntry .eUniformBuffer esz b o l =
      ((if 0 < l.length then [⟨b, 0, l.length, .eUniformBuffer, o, esz⟩] else []),
        b + l.length, o + l.length * esz) := rfl

theorem AddEntry_storage (esz b o : Nat) (l : List Nat) :
    AddEntry .eStorageBuffer esz b o l =
      ((if 0 < l.length then [⟨b, 0, l.length, .eStorageBuffer, o, esz⟩] else []),
        b + l.length, o + l.length * esz) := rfl

theorem AddEntry_image (esz b o : Nat) (l : List Nat) :
    AddEntry .eStorageImage esz b o l =
      ((if 0 < l.length then [⟨b, 0, l.length, .eStorageImage, o, esz⟩] else []),
        b + l.length, o + l.length * esz) := rfl

theorem AddEntry_texel (esz b o : Nat) (l : List Nat) :
    AddEntry .eUniformTexelBuffer esz b o l =
      ((List.range l.length).map
          (fun i => ⟨b + i, 0, 1, .eUniformTexelBuffer, o + i * esz, esz⟩),
        b + l.length, o + l.length * esz) := rfl

theorem AddEntry_sampler (esz b o : Nat) (l : List Nat) :
    AddEntry .eCombinedImageSampler esz b o l = addSamplerEntries esz b o l := rfl

theorem addSamplerEntries_map_binding (esz : Nat) :
    ∀ (l : List Nat) (b o : Nat),
      (addSamplerEntries esz b o l).1.map (fun t => t.dstBinding) =
        List.range' b l.length := by
  intro l
  induction l with
  | nil => intro b o; simp [addSamplerEntries]
  | cons s rest ih =>
    intro b o
    simp only [addSamplerEntries, List.map_cons, ih (b + 1) (o + s * esz),
      List.length_cons, List.range'_succ]

theorem layout_map_binding (se : ShaderEntries) (base : Nat) :
    (FillDescriptorLayout se base).1.map (fun x => x.binding) =
      List.range' base (NumBindings se) := by
  unfold FillDescriptorLayout
  simp only [List.map_append, addBindings_map_binding, addBindings_snd, NumBindings]
  rw [show se.const_buffers.length + se.global_buffers.length + se.texel_buffers.length +
      se.samplers.length + se.images.length =
      se.const_buffers.length + (se.global_buffers.length + (se.texel_buffers.length +
        (se.samplers.length + se.images.length))) by ring]
  rw [range'_split, range'_split, range'_split, range'_split]
  simp only [List.append_assoc]

/-- C2: the template derivation mirrors the binding layout in the fixed kind
order. With the source's reference-swapped wiring, the accumulator passed in
the `offset` position is the binding-slot counter and the one passed in the
`binding` position is the running byte offset, so with slot base `o` and byte
base `b` the produced entries are exactly the specification's: texel buffers
one entry per element at byte offset `byte + i * entrySize`, samplers one
entry per declared sampler with `count = arraySize` advancing the byte offset
by `arraySize * entrySize`, every other kind a single grouped entry when
`count > 0`; the final accumulators advance by the total element count times
the entry size and by the total slot count; and every produced entry's first
field is one of the binding indices of `FillDescriptorLayout` built at the
same base. -/
theorem c2_update_template_mirrors_layout (esz : Nat) (se : ShaderEntries)
    (b o : Nat) :
    (FillDescriptorUpdateTemplateEntries esz se b o).1 = specTemplates esz se o b ∧
    (FillDescriptorUpdateTemplateEntries esz se b o).2.1 = b + totalElements se * esz ∧
    (FillDescriptorUpdateTemplateEntries esz se b o).2.2 = o + NumBindings se ∧
    ((FillDescriptorUpdateTemplateEntries esz se b o).1.all
      (fun t => ((FillDescriptorLayout se o).1.map (fun x => x.binding)).contains
        t.dstBinding)) = true := by
  have hs1 := (addSamplerEntries_acc esz se.samplers
    (o + se.const_buffers.length + se.global_buffers.length + se.texel_buffers.length)
    (b + se.const_buffers.length * esz + se.global_buffers.length * esz +
      se.texel_buffers.length * esz)).1
  have hs2 := (addSamplerEntries_acc esz se.samplers
    (o + se.const_buffers.length + se.global_buffers.length + se.texel_buffers.length)
    (b + se.const_buffers.length * esz + se.global_buffers.length * esz +
      se.texel_buffers.length * esz)).2
  have hmain : (FillDescriptorUpdateTemplateEntries esz se b o).1 =
      specTemplates esz se o b := by
    simp only [FillDescriptorUpdateTemplateEntries, specTemplates, AddEntry_uniform,
      AddEntry_storage, AddEntry_texel, AddEntry_sampler, AddEntry_image, hs1, hs2]
  have htot1 : (FillDescriptorUpdateTemplateEntries esz se b o).2.1 =
      b + totalElements se * esz := by
    simp only [FillDescriptorUpdateTemplateEntries, AddEntry_uniform,
      AddEntry_storage, AddEntry_texel, AddEntry_sampler, AddEntry_image, hs2,
      totalElements]
    ring
  have htot2 : (FillDescriptorUpdateTemplateEntries esz se b o).2.2 =
      o + NumBindings se := by
    simp only [FillDescriptorUpdateTemplateEntries, AddEntry_uniform,
      AddEntry_storage, AddEntry_texel, AddEntry_sampler, AddEntry_image, hs1,
      NumBindings]
    ring
  refine ⟨hmain, htot1, htot2, ?_⟩
  rw [hmain, layout_map_binding, List.all_eq_true]
  intro t ht
  have hmem : t.dstBinding ∈ List.range' o (NumBindings se) := by
    simp only [specTemplates, List.mem_append] at ht
    have hnum : NumBindings se = se.const_buffers.length + se.global_buffers.length +
        se.texel_buffers.length + se.samplers.length + se.images.length := rfl
    rcases ht with ((((h | h) | h) | h) | h)
    · by_cases hc : 0 < se.const_buffers.length
      · rw [if_pos hc, List.mem_singleton] at h
        subst h
        rw [List.mem_range'_1]
        dsimp only
        omega
      · rw [if_neg hc] at h
        simp at h
    · by_cases hc : 0 < se.global_buffers.length
      · rw [if_pos hc, List.mem_singleton] at h
        subst h
        rw [List.mem_range'_1]
        dsimp only
        omega
      · rw [if_neg hc] at h
        simp at h
    · rw [List.mem_map] at h
      rcases h with ⟨i, hi, rfl⟩
      rw [List.mem_range] at hi
      rw [List.mem_range'_1]
      dsimp only
      omega
    · have hb : t.dstBinding ∈ (addSamplerEntries esz
          (o + se.const_buffers.length + se.global_buffers.length +
            se.texel_buffers.length)
          (b + se.const_buffers.length * esz + se.global_buffers.length * esz +
            se.texel_buffers.length * esz) se.samplers).1.map
          (fun t => t.dstBinding) := List.mem_map_of_mem _ h
      rw [addSamplerEntries_map_binding, List.mem_range'_1] at hb
      rw [List.mem_range'_1]
      omega
    · by_cases hc : 0 < se.images.length
      · rw [if_pos hc, List.mem_singleton] at h
        subst h
        rw [List.mem_range'_1]
        dsimp only
        omega
      · rw [if_neg hc] at h
        simp at h
  simpa using hmem

/-- Modelled from the spec: `GraphicsPipelineCacheKey` (declared in the
header) — the ordered per-stage shader GPU addresses plus the opaque
fixed-function state blob, compared by value. -/
structure GraphicsPipelineCacheKey where
  shaders : List Nat
  fixed_state : Nat
deriving DecidableEq

/-- Modelled from the spec: `ComputePipelineCacheKey` (declared in the
header) — single shader GPU address, shared-memory size and workgroup
size. -/
structure ComputePipelineCacheKey where
  shader : Nat
  shared_memory_size : Nat
  workgroup_size : Nat × Nat × Nat
deriving DecidableEq

/-- The mutable state of `VKPipelineCache` relevant to the graphics/compute
pipeline maps: compiled pipelines are identified by the `Nat` id handed out
by `next_pipeline` (a fresh id per construction, standing for a distinct
`VKGraphicsPipeline`/`VKComputePipeline` object). -/
structure CacheState where
  graphics_cache : List (GraphicsPipelineCacheKey × Nat)
  compute_cache : List (ComputePipelineCacheKey × Nat)
  last_graphics_key : GraphicsPipelineCacheKey
  last_graphics_pipeline : Option Nat
  next_pipeline : Nat
deriving DecidableEq

/-- Map lookup in the graphics cache (`unordered_map::find` semantics over
the association list). -/
def lookupG (m : List (GraphicsPipelineCacheKey × Nat))
    (k : GraphicsPipelineCacheKey) : Option Nat :=
  (m.find? (fun e => decide (e.1 = k))).map (fun e => e.2)

/-- The slow path of `VKPipelineCache::GetGraphicsPipeline`: store the key in
the memo slot, `try_emplace` into the map, compile on miss (fresh pipeline
id), memoize the entry. Returns (pipeline, state, is_cache_miss). -/
def GetGraphicsPipelineSlow (s : CacheState) (key : GraphicsPipelineCacheKey) :
    Nat × CacheState × Bool :=
  match lookupG s.graphics_cache key with
  | some p =>
    (p, { s with last_graphics_key := key, last_graphics_pipeline := some p }, false)
  | none =>
    let p := s.next_pipeline
    (p,
      { s with
          last_graphics_key := key
          last_graphics_pipeline := some p
          graphics_cache := (key, p) :: s.graphics_cache
          next_pipeline := p + 1 },
      true)

/-- `VKPipelineCache::GetGraphicsPipeline` from the source: if the memo slot
holds a pipeline and the memoized key equals the requested key, return the
memoized pipeline without touching the map; otherwise take the slow path. -/
def GetGraphicsPipeline (s : CacheState) (key : GraphicsPipelineCacheKey) :
    Nat × CacheState × Bool :=
  match s.last_graphics_pipeline with
  | some p =>
    if s.last_graphics_key = key then (p, s, false)
    else GetGraphicsPipelineSlow s key
  | none => GetGraphicsPipelineSlow s key

/-- Whether a graphics key references the invalidated GPU address in some
stage slot (`std::find` over `entry.shaders` in `Unregister`). -/
def matchesGraphics (addr : Nat) (k : GraphicsPipelineCacheKey) : Bool :=
  k.shaders.contains addr

/-- Whether a compute key's shader address equals the invalidated address. -/
def matchesCompute (addr : Nat) (k : ComputePipelineCacheKey) : Bool :=
  k.shader == addr

/-- Observable events of one `Unregister` call: the GPU-queue `Finish` wait
and the two kinds of map erasure. -/
inductive CacheEvent
  | finish
  | eraseGraphics (key : GraphicsPipelineCacheKey)
  | eraseCompute (key : ComputePipelineCacheKey)
deriving DecidableEq

/-- The graphics loop of `VKPipelineCache::Unregister`: walk the map, keep
non-matching entries, erase matching ones; `Finish` is invoked (and recorded)
only before the first erasure, guarded by the `finished` flag. Returns the
remaining entries, the updated flag, and the event trace. -/
def unregGraphics (addr : Nat) :
    List (GraphicsPipelineCacheKey × Nat) → Bool →
    List (GraphicsPipelineCacheKey × Nat) × Bool × List CacheEvent
  | [], finished => ([], finished, [])
  | e :: rest, finished =>
    if matchesGraphics addr e.1 then
      let tail := unregGraphics addr rest true
      (tail.1, tail.2.1,
        (if finished then [] else [CacheEvent.finish]) ++
          CacheEvent.eraseGraphics e.1 :: tail.2.2)
    else
      let tail := unregGraphics addr rest finished
      (e :: tail.1, tail.2.1, tail.2.2)

/-- The compute loop of `VKPipelineCache::Unregister`, sharing the
`finished` flag with the graphics loop. -/
def unregCompute (addr : Nat) :
    List (ComputePipelineCacheKey × Nat) → Bool →
    List (ComputePipelineCacheKey × Nat) × Bool × List CacheEvent
  | [], finished => ([], finished, [])
  | e :: rest, finished =>
    if matchesCompute addr e.1 then
      let tail := unregCompute addr rest true
      (tail.1, tail.2.1,
        (if finished then [] else [CacheEvent.finish]) ++
          CacheEvent.eraseCompute e.1 :: tail.2.2)
    else
      let tail := unregCompute addr rest finished
      (e :: tail.1, tail.2.1, tail.2.2)

/-- `VKPipelineCache::Unregister` from the source: purge both maps of entries
referencing the invalidated shader address, waiting on the GPU queue at most
once before the first erasure. The memo slot (`last_graphics_key`,
`last_graphics_pipeline`) is not touched. The final delegation to
`RasterizerCache::Unregister` happens outside the modelled state. -/
def Unregister (s : CacheState) (invalidated_addr : Nat) :
    CacheState × List CacheEvent :=
  let g := unregGraphics invalidated_addr s.graphics_cache false
  let c := unregCompute invalidated_addr s.compute_cache g.2.1
  ({ s with graphics_cache := g.1, compute_cache := c.1 }, g.2.2 ++ c.2.2)

/-- The erase events the graphics loop generates: one per matching entry, in
map order. -/
def erasedG (addr : Nat) (l : List (GraphicsPipelineCacheKey × Nat)) :
    List CacheEvent :=
  (l.filter (fun e => matchesGraphics addr e.1)).map
    (fun e => CacheEvent.eraseGraphics e.1)

/-- The erase events the compute loop generates. -/
def erasedC (addr : Nat) (l : List (ComputePipelineCacheKey × Nat)) :
    List CacheEvent :=
  (l.filter (fun e => matchesCompute addr e.1)).map
    (fun e => CacheEvent.eraseCompute e.1)

theorem unregGraphics_spec (addr : Nat) :
    ∀ (l : List (GraphicsPipelineCacheKey × Nat)) (fin : Bool),
      unregGraphics addr l fin =
        (l.filter (fun e => !matchesGraphics addr e.1),
         fin || l.any (fun e => matchesGraphics addr e.1),
         if fin then erasedG addr l
         else if l.any (fun e => matchesGraphics addr e.1) then
           CacheEvent.finish :: erasedG addr l
         else []) := by
  intro l
  induction l with
  | nil => intro fin; simp [unregGraphics, erasedG]
  | cons e rest ih =>
    intro fin
    by_cases hm : matchesGraphics addr e.1 = true
    · cases fin <;>
        simp [unregGraphics, hm, ih, erasedG, List.filter_cons, List.any_cons]
    · have hm' : matchesGraphics addr e.1 = false := by simpa using hm
      cases fin <;>
        simp [unregGraphics, hm', ih, erasedG, List.filter_cons, List.any_cons] <;>
        rw [hm', Bool.false_or]

theorem unregCompute_spec (addr : Nat) :
    ∀ (l : List (ComputePipelineCacheKey × Nat)) (fin : Bool),
      unregCompute addr l fin =
        (l.filter (fun e => !matchesCompute addr e.1),
         fin || l.any (fun e => matchesCompute addr e.1),
         if fin then erasedC addr l
         else if l.any (fun e => matchesCompute addr e.1) then
           CacheEvent.finish :: erasedC addr l
         else []) := by
  intro l
  induction l with
  | nil => intro fin; simp [unregCompute, erasedC]
  | cons e rest ih =>
    intro fin
    by_cases hm : matchesCompute addr e.1 = true
    · cases fin <;>
        simp [unregCompute, hm, ih, erasedC, List.filter_cons, List.any_cons]
    · have hm' : matchesCompute addr e.1 = false := by simpa using hm
      cases fin <;>
        simp [unregCompute, hm', ih, erasedC, List.filter_cons, List.any_cons] <;>
        rw [hm', Bool.false_or]

theorem count_finish_erasedG (addr : Nat) (l : List (GraphicsPipelineCacheKey × Nat)) :
    (erasedG addr l).count CacheEvent.finish = 0 := by
  rw [List.count_eq_zero]
  simp [erasedG]

theorem count_finish_erasedC (addr : Nat) (l : List (ComputePipelineCacheKey × Nat)) :
    (erasedC addr l).count CacheEvent.finish = 0 := by
  rw [List.count_eq_zero]
  simp [erasedC]

/-- C3: one `Unregister` call removes exactly the graphics entries whose key
contains the invalidated address in some stage slot and exactly the compute
entries whose key's shader address equals it, leaves every other entry
untouched; the event trace is empty when nothing is removed and otherwise
consists of the single GPU-queue `Finish` wait followed by all the erasures,
so `Finish` runs at most once and every removal is preceded by it. -/
theorem c3_unregister_exact_removals_single_finish (s : CacheState) (addr : Nat) :
    (Unregister s addr).1.graphics_cache =
      s.graphics_cache.filter (fun e => !matchesGraphics addr e.1) ∧
    (Unregister s addr).1.compute_cache =
      s.compute_cache.filter (fun e => !matchesCompute addr e.1) ∧
    (Unregister s addr).2 =
      (if s.graphics_cache.any (fun e => matchesGraphics addr e.1) ||
          s.compute_cache.any (fun e => matchesCompute addr e.1) then
        CacheEvent.finish :: (erasedG addr s.graphics_cache ++ erasedC addr s.compute_cache)
      else []) ∧
    (Unregister s addr).2.count CacheEvent.finish ≤ 1 := by
  have hg := unregGraphics_spec addr s.graphics_cache false
  have htrace : (Unregister s addr).2 =
      (if s.graphics_cache.any (fun e => matchesGraphics addr e.1) ||
          s.compute_cache.any (fun e => matchesCompute addr e.1) then
        CacheEvent.finish ::
          (erasedG addr s.graphics_cache ++ erasedC addr s.compute_cache)
      else []) := by
    simp only [Unregister, hg, unregCompute_spec]
    by_cases hga : s.graphics_cache.any (fun e => matchesGraphics addr e.1) = true
    · simp [hga]
    · have hga' : s.graphics_cache.any (fun e => matchesGraphics addr e.1) = false := by
        simpa using hga
      have hge : erasedG addr s.graphics_cache = [] := by
        unfold erasedG
        rw [List.filter_eq_nil_iff.mpr]
        · rfl
        · intro e he
          have := List.any_eq_false.mp hga' e he
          simpa using this
      by_cases hca : s.compute_cache.any (fun e => matchesCompute addr e.1) = true
      · simp [hga', hca, hge]
      · have hca' : s.compute_cache.any (fun e => matchesCompute addr e.1) = false := by
          simpa using hca
        simp [hga', hca', hge]
  refine ⟨?_, ?_, htrace, ?_⟩
  · simp [Unregister, hg, unregCompute_spec]
  · simp [Unregister, hg, unregCompute_spec]
  · rw [htrace]
    by_cases hany : (s.graphics_cache.any (fun e => matchesGraphics addr e.1) ||
        s.compute_cache.any (fun e => matchesCompute addr e.1)) = true
    · rw [if_pos hany]
      rw [List.count_cons_self, List.count_append, count_finish_erasedG,
        count_finish_erasedC]
    · rw [if_neg (by simpa using hany)]
      simp

/-- A pipeline-cache state as freshly constructed: empty maps, no memoized
pipeline, a value-initialized memo key. -/
def emptyCacheState : CacheState :=
  ⟨[], [], ⟨List.replicate 6 0, 0⟩, none, 0⟩

/-- A graphics key whose vertex-stage slot holds shader address 5. -/
def gkeyA : GraphicsPipelineCacheKey := ⟨[5, 0, 0, 0, 0, 0], 7⟩

/-- C1 failing run: compile a pipeline for `gkeyA` (a miss), unregister
shader address 5 — which erases that entry from the map but leaves the memo
slot untouched — then request `gkeyA` again. The second request takes the
memo fast path: it reports no cache miss, returns the erased pipeline id, and
the map no longer contains the key, so the claimed fresh lookup and
recompilation never happen. -/
theorem c1_stale_memo_returned_after_unregister :
    (GetGraphicsPipeline emptyCacheState gkeyA).2.2 = true ∧
    (Unregister (GetGraphicsPipeline emptyCacheState gkeyA).2.1 5).1.graphics_cache = [] ∧
    (GetGraphicsPipeline
      (Unregister (GetGraphicsPipeline emptyCacheState gkeyA).2.1 5).1 gkeyA).2.2 = false ∧
    (GetGraphicsPipeline
      (Unregister (GetGraphicsPipeline emptyCacheState gkeyA).2.1 5).1 gkeyA).1 =
      (GetGraphicsPipeline emptyCacheState gkeyA).1 ∧
    lookupG (Unregister (GetGraphicsPipeline emptyCacheState gkeyA).2.1 5).1.graphics_cache
      gkeyA = none := by
  decide

theorem getGraphics_memo (s : CacheState) (k : GraphicsPipelineCacheKey) :
    (GetGraphicsPipeline s k).2.1.last_graphics_pipeline =
      some (GetGraphicsPipeline s k).1 ∧
    (GetGraphicsPipeline s k).2.1.last_graphics_key = k := by
  unfold GetGraphicsPipeline GetGraphicsPipelineSlow
  cases hl : s.last_graphics_pipeline with
  | none => cases hlk : lookupG s.graphics_cache k <;> simp
  | some p =>
    by_cases hk : s.last_graphics_key = k
    · simp [hk, hl]
    · cases hlk : lookupG s.graphics_cache k <;> simp [hk, hlk]

/-- C7: for two graphics keys with equal per-stage shader addresses and equal
fixed-function state, two successive `GetGraphicsPipeline` calls return the
identical cached pipeline, compilation happens at most once across the pair
(the second call is never a miss), and the second call — whose key equals the
most recently returned key — takes the memo fast path without touching the
map or any other state. -/
theorem c7_equal_keys_same_pipeline (s : CacheState)
    (k1 k2 : GraphicsPipelineCacheKey)
    (hs : k1.shaders = k2.shaders) (hf : k1.fixed_state = k2.fixed_state) :
    (GetGraphicsPipeline (GetGraphicsPipeline s k1).2.1 k2).1 =
      (GetGraphicsPipeline s k1).1 ∧
    (GetGraphicsPipeline (GetGraphicsPipeline s k1).2.1 k2).2.1 =
      (GetGraphicsPipeline s k1).2.1 ∧
    (GetGraphicsPipeline (GetGraphicsPipeline s k1).2.1 k2).2.2 = false := by
  have hk : k1 = k2 := by
    cases k1
    cases k2
    simp_all
  subst hk
  obtain ⟨h1, h2⟩ := getGraphics_memo s k1
  set r := GetGraphicsPipeline s k1 with hr
  have hfast : GetGraphicsPipeline r.2.1 k1 = (r.1, r.2.1, false) := by
    unfold GetGraphicsPipeline
    rw [h1]
    simp [h2]
  rw [hfast]
  exact ⟨rfl, rfl, rfl⟩

/-- A graphics key used to witness the memoization theorem. -/
def gkeyW : GraphicsPipelineCacheKey := ⟨[1, 2, 3, 4, 5, 6], 9⟩

/-- Witness for C7 at a concrete state and key. -/
theorem c7_equal_keys_witness :
    (GetGraphicsPipeline (GetGraphicsPipeline emptyCacheState gkeyW).2.1 gkeyW).1 =
      (GetGraphicsPipeline emptyCacheState gkeyW).1 ∧
    (GetGraphicsPipeline (GetGraphicsPipeline emptyCacheState gkeyW).2.1 gkeyW).2.1 =
      (GetGraphicsPipeline emptyCacheState gkeyW).2.1 ∧
    (GetGraphicsPipeline (GetGraphicsPipeline emptyCacheState gkeyW).2.1 gkeyW).2.2 = false :=
  c7_equal_keys_same_pipeline emptyCacheState gkeyW gkeyW rfl rfl

/-- A Shader Unit (`CachedShader`): identity triple plus a unique id standing
for the translated object (`shader_ir`, `entries`); a distinct id means a
distinct translation was performed. -/
structure ShaderUnit where
  gpu_addr : Nat
  cpu_addr : Nat
  host_ptr : Nat
  uid : Nat
deriving DecidableEq

/-- Modelled from the spec: the Shader Registry (the `RasterizerCache` base
class, outside this translation unit) — an address-indexed store with
`TryGet`/`Register` keyed by the backing host pointer. -/
structure ShaderRegistry where
  store : List (Nat × ShaderUnit)
  next_uid : Nat
deriving DecidableEq

/-- `TryGet(host_ptr)` over the modelled registry. -/
def tryGetShader (r : ShaderRegistry) (host_ptr : Nat) : Option ShaderUnit :=
  (r.store.find? (fun e => e.1 == host_ptr)).map (fun e => e.2)

/-- The shader-resolution step shared by `VKPipelineCache::GetShaders` and
`VKPipelineCache::GetComputePipeline`: `TryGet` the backing pointer; on miss
construct a new unit (performing a translation, witnessed by the fresh uid)
and `Register` it. Returns (unit, registry, translated?). -/
def getOrCreateShader (r : ShaderRegistry) (gpu_addr cpu_addr host_ptr : Nat) :
    ShaderUnit × ShaderRegistry × Bool :=
  match tryGetShader r host_ptr with
  | some u => (u, r, false)
  | none =>
    let u : ShaderUnit := ⟨gpu_addr, cpu_addr, host_ptr, r.next_uid⟩
    (u, ⟨(host_ptr, u) :: r.store, r.next_uid + 1⟩, true)

/-- C9: resolving the Shader Unit for the same `(gpu_addr, cpu_addr,
host_ptr)` twice without an intervening invalidation returns the identical
unit both times; the second request hits the registry lookup, changes
nothing, and performs no second translation or registration. -/
theorem c9_shader_unit_roundtrip (r : ShaderRegistry)
    (gpu_addr cpu_addr host_ptr : Nat) :
    (getOrCreateShader (getOrCreateShader r gpu_addr cpu_addr host_ptr).2.1
        gpu_addr cpu_addr host_ptr).1 =
      (getOrCreateShader r gpu_addr cpu_addr host_ptr).1 ∧
    (getOrCreateShader (getOrCreateShader r gpu_addr cpu_addr host_ptr).2.1
        gpu_addr cpu_addr host_ptr).2.1 =
      (getOrCreateShader r gpu_addr cpu_addr host_ptr).2.1 ∧
    (getOrCreateShader (getOrCreateShader r gpu_addr cpu_addr host_ptr).2.1
        gpu_addr cpu_addr host_ptr).2.2 = false := by
  unfold getOrCreateShader
  cases hl : tryGetShader r host_ptr with
  | some u => simp [hl]
  | none =>
    have hfound : tryGetShader
        (⟨(host_ptr, ⟨gpu_addr, cpu_addr, host_ptr, r.next_uid⟩) :: r.store,
          r.next_uid + 1⟩ : ShaderRegistry) host_ptr =
        some ⟨gpu_addr, cpu_addr, host_ptr, r.next_uid⟩ := by
      simp [tryGetShader, List.find?]
    simp [hl, hfound]

/-- `GetStageFromProgram` from the source: program index 0 (VertexA) maps to
stage 0; every other program index maps to `index - 1`. -/
def GetStageFromProgram (program : Nat) : Nat :=
  if program = 0 then 0 else program - 1

/-- The stage loop of `VKPipelineCache::DecompileShaders`: iterate program
indices 0..5 (`Maxwell::MaxShaderProgram = 6`), skipping disabled stages;
for an enabled program record `(stage, program index)` in the assembled
per-stage program list, append the program's manifest to the shared binding
layout (threading `base_binding`), and — when the program is VertexA (index
0) — skip the following VertexB iteration (`++index` in the source). The
fuel argument `r` only bounds the recursion; it is spent one unit per
examined index, so `r = 6` runs the full loop. -/
def decompileGo (enabled : Nat → Bool) (ents : Nat → ShaderEntries) :
    Nat → Nat → List (Nat × Nat) → List DescriptorSetLayoutBinding → Nat →
    List (Nat × Nat) × List DescriptorSetLayoutBinding × Nat
  | _, 0, prog, binds, base => (prog, binds, base)
  | idx, r + 1, prog, binds, base =>
    if 6 ≤ idx then (prog, binds, base)
    else if enabled idx = false then decompileGo enabled ents (idx + 1) r prog binds base
    else if idx = 0 then
      decompileGo enabled ents (idx + 2) r
        (prog ++ [(GetStageFromProgram idx, idx)])
        (binds ++ (FillDescriptorLayout (ents idx) base).1)
        (FillDescriptorLayout (ents idx) base).2
    else
      decompileGo enabled ents (idx + 1) r
        (prog ++ [(GetStageFromProgram idx, idx)])
        (binds ++ (FillDescriptorLayout (ents idx) base).1)
        (FillDescriptorLayout (ents idx) base).2

/-- `VKPipelineCache::DecompileShaders` (the stage-assembly part): run the
loop from program index 0 with enough fuel for all six program slots.
Returns the `(stage, program)` assignments, the accumulated binding layout,
and the final base binding. -/
def DecompileShaders (enabled : Nat → Bool) (ents : Nat → ShaderEntries)
    (base : Nat) : List (Nat × Nat) × List DescriptorSetLayoutBinding × Nat :=
  decompileGo enabled ents 0 6 [] [] base

theorem decompileGo_acc (enabled : Nat → Bool) (ents : Nat → ShaderEntries) :
    ∀ (r idx base : Nat) (prog : List (Nat × Nat))
      (binds : List DescriptorSetLayoutBinding),
      decompileGo enabled ents idx r prog binds base =
        (prog ++ (decompileGo enabled ents idx r [] [] base).1,
         binds ++ (decompileGo enabled ents idx r [] [] base).2.1,
         (decompileGo enabled ents idx r [] [] base).2.2) := by
  intro r
  induction r with
  | zero =>
    intro idx base prog binds
    simp [decompileGo]
  | succ r ih =>
    intro idx base prog binds
    by_cases h6 : 6 ≤ idx
    · simp [decompileGo, h6]
    · by_cases he : enabled idx = false
      · simp only [decompileGo, if_neg h6, if_pos he]
        exact ih (idx + 1) base prog binds
      · by_cases h0 : idx = 0
        · simp only [decompileGo, if_neg h6, if_neg he, if_pos h0]
          rw [ih (idx + 2) (FillDescriptorLayout (ents idx) base).2 (prog ++ _) (binds ++ _),
            ih (idx + 2) (FillDescriptorLayout (ents idx) base).2 ([] ++ _) ([] ++ _)]
          simp
        · simp only [decompileGo, if_neg h6, if_neg he, if_neg h0]
          rw [ih (idx + 1) (FillDescriptorLayout (ents idx) base).2 (prog ++ _) (binds ++ _),
            ih (idx + 1) (FillDescriptorLayout (ents idx) base).2 ([] ++ _) ([] ++ _)]
          simp

theorem decompileGo_bounds (enabled : Nat → Bool) (ents : Nat → ShaderEntries) :
    ∀ (r idx base : Nat), 1 ≤ idx →
      ∀ pr ∈ (decompileGo enabled ents idx r [] [] base).1,
        idx - 1 ≤ pr.1 ∧ idx ≤ pr.2 := by
  intro r
  induction r with
  | zero =>
    intro idx base _ pr hpr
    simp [decompileGo] at hpr
  | succ r ih =>
    intro idx base h1 pr hpr
    by_cases h6 : 6 ≤ idx
    · simp [decompileGo, h6] at hpr
    · by_cases he : enabled idx = false
      · simp only [decompileGo, if_neg h6, if_pos he] at hpr
        have := ih (idx + 1) base (by omega) pr hpr
        omega
      · have h0 : ¬ idx = 0 := by omega
        simp only [decompileGo, if_neg h6, if_neg he, if_neg h0] at hpr
        rw [decompileGo_acc] at hpr
        simp only [List.nil_append, List.mem_append] at hpr
        rcases hpr with hpr | hpr
        · simp only [List.mem_singleton] at hpr
          subst hpr
          simp [GetStageFromProgram, h0]
        · have := ih (idx + 1) (FillDescriptorLayout (ents idx) base).2 (by omega) pr hpr
          omega

/-- C10: when the VertexA program (index 0) is enabled alongside VertexB
(index 1), the pair consumes exactly one stage slot — slot 0, filled from the
VertexA iteration into which VertexB is merged; program index 1 is never
separately decompiled; and the binding layout's leading entries are exactly
the single vertex-stage manifest's contribution (the manifest passed for
index 0). -/
theorem c10_vertex_a_merges_into_vertex_b (enabled : Nat → Bool)
    (ents : Nat → ShaderEntries) (base : Nat)
    (h0 : enabled 0 = true) (h1 : enabled 1 = true) :
    ((DecompileShaders enabled ents base).1.filter (fun pr => pr.1 == 0)) = [(0, 0)] ∧
    ((DecompileShaders enabled ents base).1.all (fun pr => pr.2 != 1)) = true ∧
    ((DecompileShaders enabled ents base).2.1.take
      (FillDescriptorLayout (ents 0) base).1.length) =
      (FillDescriptorLayout (ents 0) base).1 := by
  have hstep : DecompileShaders enabled ents base =
      ((0, 0) :: (decompileGo enabled ents 2 5 [] [] (FillDescriptorLayout (ents 0) base).2).1,
       (FillDescriptorLayout (ents 0) base).1 ++
         (decompileGo enabled ents 2 5 [] [] (FillDescriptorLayout (ents 0) base).2).2.1,
       (decompileGo enabled ents 2 5 [] [] (FillDescriptorLayout (ents 0) base).2).2.2) := by
    unfold DecompileShaders
    rw [show (6 : Nat) = 5 + 1 by rfl]
    rw [decompileGo]
    rw [if_neg (by omega : ¬ (6 : Nat) ≤ 0)]
    rw [if_neg (by simp [h0] : ¬ (enabled 0 = false))]
    rw [if_pos rfl]
    rw [decompileGo_acc enabled ents 5 (0 + 2)]
    simp [GetStageFromProgram]
  have hbounds := decompileGo_bounds enabled ents 5 2
    (FillDescriptorLayout (ents 0) base).2 (by omega)
  rw [hstep]
  refine ⟨?_, ?_, ?_⟩
  · have hnil : (decompileGo enabled ents 2 5 [] []
        (FillDescriptorLayout (ents 0) base).2).1.filter (fun pr => pr.1 == 0) = [] := by
      rw [List.filter_eq_nil_iff]
      intro pr hpr
      have := hbounds pr hpr
      simp only [beq_iff_eq]
      omega
    rw [List.filter_cons, hnil]
    simp
  · have hall : (decompileGo enabled ents 2 5 [] []
        (FillDescriptorLayout (ents 0) base).2).1.all (fun pr => pr.2 != 1) = true := by
      rw [List.all_eq_true]
      intro pr hpr
      have := hbounds pr hpr
      simp only [bne_iff_ne, ne_eq]
      omega
    rw [List.all_cons, hall]
    simp
  · exact List.take_left _ _

/-- The specification's example manifest: 2 constant buffers, 0 storage
buffers, 1 texel buffer, 3 combined-image-samplers of array sizes 1, 1, 2,
and 1 storage image. -/
def seW : ShaderEntries := ⟨[0, 0], [], [0], [1, 1, 2], [0]⟩

/-- Witness for C10 with VertexA and VertexB enabled and the stages beyond
them disabled. -/
theorem c10_vertex_a_witness :
    ((DecompileShaders (fun i => i == 0 || i == 1) (fun _ => seW) 0).1.filter
      (fun pr => pr.1 == 0)) = [(0, 0)] ∧
    ((DecompileShaders (fun i => i == 0 || i == 1) (fun _ => seW) 0).1.all
      (fun pr => pr.2 != 1)) = true ∧
    ((DecompileShaders (fun i => i == 0 || i == 1) (fun _ => seW) 0).2.1.take
      (FillDescriptorLayout seW 0).1.length) = (FillDescriptorLayout seW 0).1 :=
  c10_vertex_a_merges_into_vertex_b (fun i => i == 0 || i == 1) (fun _ => seW) 0 rfl rfl
